import Mathlib

/-!
Shallow embedding of the crypto analytics core of this repository
(src/core.py: data models, Binance fetcher, analytics engine;
src/ui.py: the fetch toggle of the Tkinter app).

Modelling conventions:
- Python floats are modelled by the rationals; the only irrational
  operation in the code, the square root in the Pearson denominator,
  is kept symbolic (see CorrResult).
- A raw JSON string field that should hold a number is modelled as
  Option Rat: some q means the field parses as the float q, none means
  float(...) raises ValueError.  A missing key, which item.get(key, 0)
  turns into 0, is modelled as some 0.
- Timestamp fields (last_updated, the report timestamp) are omitted:
  they are datetime.now() calls and no claim depends on them.
- pydantic construction of a model is modelled as a validate function
  returning Option: none models a ValidationError at construction time.
-/

/-- The TokenCategory enum of src/core.py (seven members). -/
inductive TokenCategory where
  | LAYER1
  | LAYER2
  | DEFI
  | NFT
  | MEME
  | STABLE
  | UNKNOWN
  deriving DecidableEq

/-- The TokenData pydantic model of src/core.py, without its two
datetime conveniences (last_updated).  Field names follow the source. -/
structure TokenData where
  id : String
  symbol : String
  name : String
  current_price : ℚ
  market_cap : ℚ
  market_cap_rank : Int
  total_volume : ℚ
  price_change_24h : ℚ
  price_change_percentage_24h : ℚ
  circulating_supply : ℚ
  total_supply : ℚ
  max_supply : ℚ
  category : TokenCategory
  deriving DecidableEq

/-- Python str.upper(), modelled per character.  Every symbol the
code handles is ASCII, where per-character uppercasing is exactly
Python upper(). -/
def pyUpper (s : String) : String := String.mk (s.data.map Char.toUpper)

/-- pydantic construction of TokenData.  The source declares
symbol: min_length=1, max_length=20; name: min_length=1;
current_price, market_cap, total_volume: ge=0; all other fields are
unconstrained.  The validator symbol_uppercase stores the uppercased symbol.
Any constraint violation raises ValidationError, modelled as none. -/
def TokenData.validate (id symbol name : String) (current_price market_cap : ℚ)
    (market_cap_rank : Int)
    (total_volume price_change_24h price_change_percentage_24h
     circulating_supply total_supply max_supply : ℚ)
    (category : TokenCategory) : Option TokenData :=
  if 1 ≤ symbol.length ∧ symbol.length ≤ 20 ∧ 1 ≤ name.length
      ∧ 0 ≤ current_price ∧ 0 ≤ market_cap ∧ 0 ≤ total_volume then
    some { id := id, symbol := pyUpper symbol, name := name,
           current_price := current_price, market_cap := market_cap,
           market_cap_rank := market_cap_rank, total_volume := total_volume,
           price_change_24h := price_change_24h,
           price_change_percentage_24h := price_change_percentage_24h,
           circulating_supply := circulating_supply, total_supply := total_supply,
           max_supply := max_supply, category := category }
  else none

/-- The HistoricalData pydantic model of src/core.py.  timestamp is
modelled as a rational epoch value.  The model declares no Field
constraints and no validators. -/
structure HistoricalData where
  timestamp : ℚ
  token_id : String
  price : ℚ
  volume : ℚ
  market_cap : ℚ
  deriving DecidableEq

/-- pydantic construction of HistoricalData: the model has no
constraints, so construction always succeeds and stores the arguments
unchanged. -/
def HistoricalData.validate (timestamp : ℚ) (token_id : String)
    (price volume market_cap : ℚ) : Option HistoricalData :=
  some { timestamp := timestamp, token_id := token_id, price := price,
         volume := volume, market_cap := market_cap }

/-- One raw element of the Binance /ticker/24hr JSON array, restricted
to the keys the code reads.  The symbol key is always present (the
code filters on it before parsing). -/
structure RawTicker where
  symbol : String
  lastPrice : Option ℚ
  quoteVolume : Option ℚ
  priceChange : Option ℚ
  priceChangePercent : Option ℚ
  deriving DecidableEq

/-- safe_float of src/core.py: float(item.get(key, 0)), with ValueError
and TypeError caught and turned into 0.0.  On our encoding that is
Option.getD 0. -/
def safe_float (v : Option ℚ) : ℚ := v.getD 0

/-- Python symbol_full.replace("USDT", "") on the character list:
removes every leftmost non-overlapping occurrence of "USDT".
Implemented by direct pattern matching, which is exactly the
leftmost-non-overlapping scan Python performs. -/
def removeUSDT : List Char → List Char
  | [] => []
  | 'U' :: 'S' :: 'D' :: 'T' :: rest => removeUSDT rest
  | c :: cs => c :: removeUSDT cs

/-- String wrapper for removeUSDT; models symbol_full.replace("USDT", ""). -/
def strip_usdt (s : String) : String := String.mk (removeUSDT s.data)

/-- Python x["symbol"].endswith("USDT"). -/
def endsWithUSDT (s : String) : Bool := List.isSuffixOf ['U', 'S', 'D', 'T'] s.data

/-- The Layer-1 membership set of _parse_binance_token. -/
def layer1_symbols : List String := ["BTC", "ETH", "BNB", "SOL", "ADA", "AVAX"]

/-- The stablecoin membership set of _parse_binance_token. -/
def stable_symbols : List String := ["USDT", "USDC", "FDUSD", "DAI"]

/-- The DeFi membership set of _parse_binance_token. -/
def defi_symbols : List String := ["UNI", "AAVE", "CAKE"]

/-- The meme membership set of _parse_binance_token. -/
def meme_symbols : List String := ["DOGE", "SHIB", "PEPE"]

/-- The NFT/Gaming membership set of _parse_binance_token. -/
def nft_symbols : List String := ["AXS", "MANA", "SAND"]

/-- The category assignment of _parse_binance_token (src/core.py lines
200-210): an if/elif chain over the five static sets, first match
wins, fall-through to UNKNOWN.  It is applied to the stripped symbol. -/
def classify (symbol_short : String) : TokenCategory :=
  if symbol_short ∈ layer1_symbols then TokenCategory.LAYER1
  else if symbol_short ∈ stable_symbols then TokenCategory.STABLE
  else if symbol_short ∈ defi_symbols then TokenCategory.DEFI
  else if symbol_short ∈ meme_symbols then TokenCategory.MEME
  else if symbol_short ∈ nft_symbols then TokenCategory.NFT
  else TokenCategory.UNKNOWN

/-- The five checks of classify as an ordered priority table, for the
refinement statement of claim C6. -/
def categoryChecks : List (List String × TokenCategory) :=
  [(layer1_symbols, TokenCategory.LAYER1), (stable_symbols, TokenCategory.STABLE),
   (defi_symbols, TokenCategory.DEFI), (meme_symbols, TokenCategory.MEME),
   (nft_symbols, TokenCategory.NFT)]

/-- Spec-side restatement of the categorizer: scan the priority table
in order, first matching set wins, otherwise UNKNOWN. -/
def classifySpec (s : String) : TokenCategory :=
  match categoryChecks.find? (fun pr => decide (s ∈ pr.1)) with
  | some pr => pr.2
  | none => TokenCategory.UNKNOWN

/-- _parse_binance_token of src/core.py: strip "USDT" from the pair
symbol (symbol_short, inlined below), classify it, read the numeric
fields through safe_float, and construct the TokenData model.  A
ValidationError from construction propagates (none); the caller
fetch_data catches it and skips the record. -/
def parse_binance_token (item : RawTicker) (rank : Int) : Option TokenData :=
  TokenData.validate item.symbol (strip_usdt item.symbol) (strip_usdt item.symbol)
    (safe_float item.lastPrice) 0 rank (safe_float item.quoteVolume)
    (safe_float item.priceChange) (safe_float item.priceChangePercent)
    0 0 0 (classify (strip_usdt item.symbol))

/-- The record-drop condition of the parse, spelled out: validation
succeeds iff the stripped symbol has 1..20 characters and the parsed
price and volume are nonnegative (unparseable fields were already
coerced to 0 by safe_float, so they never trip the check). -/
def parseOK (item : RawTicker) : Prop :=
  1 ≤ (strip_usdt item.symbol).length ∧ (strip_usdt item.symbol).length ≤ 20
    ∧ 0 ≤ safe_float item.lastPrice ∧ 0 ≤ safe_float item.quoteVolume

instance (item : RawTicker) : Decidable (parseOK item) := by
  unfold parseOK; infer_instance

/-- Generic stable insertion: walk past every element y for which
later x y (x belongs after y), then place x.  Equal-key elements are
never walked past, so the element inserted first stays in front. -/
def insertStable {α : Type} (later : α → α → Bool) (x : α) : List α → List α
  | [] => [x]
  | y :: ys => if later x y then y :: insertStable later x ys else x :: y :: ys

/-- Generic stable insertion sort.  CPython's list.sort is stable, and
a stable sort by a total preorder has a unique output, so any stable
implementation models it exactly. -/
def sortStable {α : Type} (later : α → α → Bool) : List α → List α
  | [] => []
  | x :: xs => insertStable later x (sortStable later xs)

/-- sorted(key=..., reverse=True): stable sort by key descending. -/
def sortDescBy {α : Type} (key : α → ℚ) (l : List α) : List α :=
  sortStable (fun a b => decide (key a < key b)) l

/-- sorted(key=..., reverse=False): stable sort by key ascending. -/
def sortAscBy {α : Type} (key : α → ℚ) (l : List α) : List α :=
  sortStable (fun a b => decide (key b < key a)) l

/-- The ranking key of fetch_data: float(x.get("quoteVolume", 0)).
Inside the sorted branch every quoteVolume is some, where this agrees
with the raw key; elsewhere fetch_data does not sort. -/
def volKey (x : RawTicker) : ℚ := safe_float x.quoteVolume

/-- The USDT filter of fetch_data. -/
def usdtPairs (tickers : List RawTicker) : List RawTicker :=
  tickers.filter (fun x => endsWithUSDT x.symbol)

/-- The enumerate-parse-append loop of fetch_data: item number i gets
rank i+1; a record whose parse raises is skipped and the loop
continues with the next index. -/
def parse_ranked : Nat → List RawTicker → List TokenData
  | _, [] => []
  | i, item :: rest =>
    match parse_binance_token item ((i : Int) + 1) with
    | some t => t :: parse_ranked (i + 1) rest
    | none => parse_ranked (i + 1) rest

/-- fetch_data of BinanceTokensFetcher (src/core.py lines 159-187).
The `if not all_tickers` guard covers both a failed request (None) and
an empty array; both give [].  The sort is wrapped in
try/except ValueError: if any quoteVolume fails to parse, CPython's
list.sort (which precomputes all keys before moving anything) leaves
the list in its original order.  Then slice to limit and run the
enumerate/parse loop. -/
def fetch_data (all_tickers : List RawTicker) (limit : Nat) : List TokenData :=
  if all_tickers.isEmpty then []
  else
    if (usdtPairs all_tickers).all (fun x => x.quoteVolume.isSome) then
      parse_ranked 0 ((sortDescBy volKey (usdtPairs all_tickers)).take limit)
    else
      parse_ranked 0 ((usdtPairs all_tickers).take limit)

/-- One entry of the top_gainers / top_losers lists of analyze_trend. -/
structure TrendEntry where
  symbol : String
  price : ℚ
  change : ℚ
  deriving DecidableEq

/-- The analyze_trend report dict (timestamp omitted, see header). -/
structure TrendReport where
  total_tokens : Nat
  total_volume : ℚ
  top_gainers : List TrendEntry
  top_losers : List TrendEntry
  deriving DecidableEq

/-- The dict comprehension entry of analyze_trend. -/
def trendEntryOf (t : TokenData) : TrendEntry :=
  { symbol := t.symbol, price := t.current_price,
    change := t.price_change_percentage_24h }

/-- The sort key of analyze_trend: x.price_change_percentage_24h or 0.
The field is a non-optional float (default 0.0), and Python `or 0`
maps 0.0 to 0 and any other number to itself, so on this model it is
the field itself. -/
def changeKey (t : TokenData) : ℚ := t.price_change_percentage_24h

/-- analyze_trend of CryptoAnalyzer (src/core.py lines 355-402).
`if not data: return {}` is modelled as none (the empty dict has none
of the report keys).  Otherwise two stable sorts of a copy, slice 5,
and a volume sum.  The try/except around the body cannot fire on this
pure model (attribute access and arithmetic are total). -/
def analyze_trend (data : List TokenData) : Option TrendReport :=
  if data.isEmpty then none
  else
    some { total_tokens := data.length,
           total_volume := (data.map (fun t => t.total_volume)).sum,
           top_gainers := ((sortDescBy changeKey data).take 5).map trendEntryOf,
           top_losers := ((sortAscBy changeKey data).take 5).map trendEntryOf }

/-- Result of calculate_correlation.  frac n d stands for the float
n / sqrt d with d > 0; zero is the literal 0.0 sentinel return.  The
square root is kept symbolic so every definition stays computable;
sqrt d = 0 iff d = 0 for the nonnegative d the code produces, so the
`denominator == 0` test is the `d = 0` test. -/
inductive CorrResult where
  | zero : CorrResult
  | frac (numerator denomSq : ℚ) : CorrResult
  deriving DecidableEq

/-- Sum of squared deviations from the mean, i.e.
sum((p - mean)**2 for p in l) with mean = sum(l)/len(l). -/
def sumDevSq (l : List ℚ) : ℚ :=
  (l.map (fun p => (p - l.sum / (l.length : ℚ)) ^ 2)).sum

/-- The square of the Pearson denominator of calculate_correlation:
the product of the two sums of squared deviations, computed on the
positionally truncated series. -/
def corrDenomSq (prices1 prices2 : List ℚ) : ℚ :=
  sumDevSq (prices1.take (min prices1.length prices2.length))
    * sumDevSq (prices2.take (min prices1.length prices2.length))

/-- calculate_correlation of CryptoAnalyzer (src/core.py lines
404-438), as a function of the two price series extracted from the
historical documents (the DB query part is outside the numeric core).
Guard on fewer than 2 points, truncate both series to the shorter
length pairing by position, Pearson formula, and return 0.0 when the
denominator is zero.  The surrounding try/except cannot fire on this
pure model. -/
def calculate_correlation (prices1 prices2 : List ℚ) : CorrResult :=
  if prices1.length < 2 ∨ prices2.length < 2 then CorrResult.zero
  else
    if corrDenomSq prices1 prices2 = 0 then CorrResult.zero
    else
      CorrResult.frac
        ((((prices1.take (min prices1.length prices2.length)).zip
            (prices2.take (min prices1.length prices2.length))).map
          (fun q =>
            (q.1 - (prices1.take (min prices1.length prices2.length)).sum
                / ((prices1.take (min prices1.length prices2.length)).length : ℚ))
            * (q.2 - (prices2.take (min prices1.length prices2.length)).sum
                / ((prices2.take (min prices1.length prices2.length)).length : ℚ)))).sum)
        (corrDenomSq prices1 prices2)

/-- The observable state of CryptoAnalyticsApp relevant to the stream
control: the is_fetching flag, plus a count of how many times
threading.Thread(target=self.fetch_loop).start() has run (the model's
stand-in for "a poll cycle was spawned"). -/
structure AppState where
  is_fetching : Bool
  threads_spawned : Nat
  deriving DecidableEq

/-- toggle_fetching of src/ui.py lines 221-231: the single stream
control.  If the flag is down it raises it and spawns the fetch
thread; otherwise it lowers the flag (fetch_loop observes the flag at
the top of each cycle and exits). -/
def toggle_fetching (s : AppState) : AppState :=
  if s.is_fetching = false then
    { is_fetching := true, threads_spawned := s.threads_spawned + 1 }
  else
    { is_fetching := false, threads_spawned := s.threads_spawned }

/-- The three sample tokens of TestCryptoSystem.setUp (src/test.py),
with pydantic defaults for the unsupplied fields. -/
def sampleTokens : List TokenData :=
  [{ id := "BTCUSDT", symbol := "BTC", name := "Bitcoin", current_price := 50000,
     market_cap := 0, market_cap_rank := 0, total_volume := 1000000,
     price_change_24h := 0, price_change_percentage_24h := 5,
     circulating_supply := 0, total_supply := 0, max_supply := 0,
     category := TokenCategory.LAYER1 },
   { id := "ETHUSDT", symbol := "ETH", name := "Ethereum", current_price := 3000,
     market_cap := 0, market_cap_rank := 0, total_volume := 500000,
     price_change_24h := 0, price_change_percentage_24h := -2,
     circulating_supply := 0, total_supply := 0, max_supply := 0,
     category := TokenCategory.LAYER1 },
   { id := "DOGEUSDT", symbol := "DOGE", name := "Dogecoin", current_price := 1/10,
     market_cap := 0, market_cap_rank := 0, total_volume := 200000,
     price_change_24h := 0, price_change_percentage_24h := 10,
     circulating_supply := 0, total_supply := 0, max_supply := 0,
     category := TokenCategory.MEME }]

/-- Concrete input for the C1 counterexample: the middle record has a
parseable but negative lastPrice, so its construction fails validation
and fetch_data drops it, leaving a rank gap. -/
def c1Tickers : List RawTicker :=
  [{ symbol := "AAAUSDT", lastPrice := some 1, quoteVolume := some 10,
     priceChange := some 0, priceChangePercent := some 0 },
   { symbol := "BBBUSDT", lastPrice := some (-1), quoteVolume := some 5,
     priceChange := some 0, priceChangePercent := some 0 },
   { symbol := "CCCUSDT", lastPrice := some 2, quoteVolume := some 1,
     priceChange := some 0, priceChangePercent := some 0 }]

/-- Concrete input for the C1 witness: two well-formed tickers. -/
def wTickers : List RawTicker :=
  [{ symbol := "AAAUSDT", lastPrice := some 1, quoteVolume := some 10,
     priceChange := some 0, priceChangePercent := some 0 },
   { symbol := "CCCUSDT", lastPrice := some 2, quoteVolume := some 1,
     priceChange := some 0, priceChangePercent := some 0 }]

/-- Concrete input for the C2 counterexample: lastPrice and
quoteVolume are present but unparseable. -/
def c2Ticker : RawTicker :=
  { symbol := "XYZUSDT", lastPrice := none, quoteVolume := none,
    priceChange := some 1, priceChangePercent := some 2 }

/-- Concrete input for the C5 counterexample: a pair symbol ending in
"USDT" that also contains "USDT" in its interior. -/
def c5Ticker : RawTicker :=
  { symbol := "AUSDTBUSDT", lastPrice := some 1, quoteVolume := some 2,
    priceChange := some 0, priceChangePercent := some 0 }

/-! ## Helper lemmas about the stable insertion sort -/

theorem insertStable_perm {α : Type} (later : α → α → Bool) (x : α) :
    ∀ l : List α, List.Perm (insertStable later x l) (x :: l) := by
  intro l
  induction l with
  | nil => exact List.Perm.refl _
  | cons y ys ih =>
    by_cases h : later x y = true
    · simp only [insertStable, h, if_true]
      exact (List.Perm.cons y ih).trans (List.Perm.swap x y ys)
    · simp only [insertStable, h, if_false]
      exact List.Perm.refl _

theorem sortStable_perm {α : Type} (later : α → α → Bool) :
    ∀ l : List α, List.Perm (sortStable later l) l := by
  intro l
  induction l with
  | nil => exact List.Perm.refl _
  | cons x xs ih =>
    exact (insertStable_perm later x (sortStable later xs)).trans (List.Perm.cons x ih)

theorem sortStable_pairwise {α : Type} {R : α → α → Prop} (later : α → α → Bool)
    (h1 : ∀ a b, later a b = true → R b a)
    (h2 : ∀ a b, later a b = false → R a b)
    (h3 : ∀ a b c, R a b → R b c → R a c) :
    ∀ l : List α, List.Pairwise R (sortStable later l) := by
  have hins : ∀ (x : α) (l : List α), List.Pairwise R l →
      List.Pairwise R (insertStable later x l) := by
    intro x l
    induction l with
    | nil => intro _; simp [insertStable]
    | cons y ys ih =>
      intro hl
      rcases List.pairwise_cons.mp hl with ⟨hy, hys⟩
      by_cases h : later x y = true
      · simp only [insertStable, h, if_true]
        refine List.pairwise_cons.mpr ⟨?_, ih hys⟩
        intro z hz
        have hz' : z ∈ x :: ys := (insertStable_perm later x ys).mem_iff.mp hz
        rcases List.mem_cons.mp hz' with hzx | hzys
        · rw [hzx]; exact h1 x y h
        · exact hy z hzys
      · have h' : later x y = false := by simpa using h
        simp only [insertStable, h', if_false]
        refine List.pairwise_cons.mpr ⟨?_, hl⟩
        intro z hz
        rcases List.mem_cons.mp hz with hzy | hzys
        · rw [hzy]; exact h2 x y h'
        · exact h3 x y z (h2 x y h') (hy z hzys)
  intro l
  induction l with
  | nil => simp [sortStable]
  | cons x xs ih => exact hins x (sortStable later xs) ih

theorem insertStable_filter {α : Type} (later : α → α → Bool) (p : α → Bool) (x : α)
    (hp : ∀ y, p x = true → later x y = true → p y = false) :
    ∀ l : List α, (insertStable later x l).filter p
      = if p x then x :: l.filter p else l.filter p := by
  intro l
  induction l with
  | nil =>
    by_cases hpx : p x = true <;> simp [insertStable, List.filter, hpx]
  | cons y ys ih =>
    by_cases h : later x y = true
    · by_cases hpx : p x = true
      · have hpy : p y = false := hp y hpx h
        simp [insertStable, h, hpx, hpy, ih, List.filter_cons]
      · have hpx' : p x = false := by simpa using hpx
        simp [insertStable, h, hpx', ih, List.filter_cons]
    · have h' : later x y = false := by simpa using h
      by_cases hpx : p x = true <;>
        simp [insertStable, h', hpx, List.filter_cons]

theorem sortStable_filter {α : Type} (later : α → α → Bool) (p : α → Bool)
    (hp : ∀ x y, p x = true → later x y = true → p y = false) :
    ∀ l : List α, (sortStable later l).filter p = l.filter p := by
  intro l
  induction l with
  | nil => rfl
  | cons x xs ih =>
    simp only [sortStable]
    rw [insertStable_filter later p x (fun y => hp x y) (sortStable later xs), ih,
      List.filter_cons]

theorem sortDescBy_perm {α : Type} (key : α → ℚ) (l : List α) :
    List.Perm (sortDescBy key l) l :=
  sortStable_perm _ l

theorem sortAscBy_perm {α : Type} (key : α → ℚ) (l : List α) :
    List.Perm (sortAscBy key l) l :=
  sortStable_perm _ l

theorem sortDescBy_pairwise {α : Type} (key : α → ℚ) (l : List α) :
    List.Pairwise (fun a b => key b ≤ key a) (sortDescBy key l) := by
  apply sortStable_pairwise
  · intro a b h; exact le_of_lt (of_decide_eq_true h)
  · intro a b h; exact not_lt.mp (of_decide_eq_false h)
  · intro a b c hab hbc; exact le_trans hbc hab

theorem sortAscBy_pairwise {α : Type} (key : α → ℚ) (l : List α) :
    List.Pairwise (fun a b => key a ≤ key b) (sortAscBy key l) := by
  apply sortStable_pairwise
  · intro a b h; exact le_of_lt (of_decide_eq_true h)
  · intro a b h; exact not_lt.mp (of_decide_eq_false h)
  · intro a b c hab hbc; exact le_trans hab hbc

/-! ## Helper lemmas about the parse and the fetch loop -/

theorem parse_fields {item : RawTicker} {r : Int} {t : TokenData}
    (h : parse_binance_token item r = some t) :
    t.market_cap_rank = r ∧ t.total_volume = safe_float item.quoteVolume
      ∧ t.symbol = pyUpper (strip_usdt item.symbol)
      ∧ t.current_price = safe_float item.lastPrice := by
  unfold parse_binance_token TokenData.validate at h
  split at h
  · cases h
    exact ⟨rfl, rfl, rfl, rfl⟩
  · cases h

theorem parse_isSome_iff (item : RawTicker) (r : Int) :
    (parse_binance_token item r).isSome = true ↔ parseOK item := by
  unfold parse_binance_token TokenData.validate parseOK
  split
  · rename_i hc
    simp only [Option.isSome_some, true_iff]
    exact ⟨hc.1, hc.2.1, hc.2.2.2.1, hc.2.2.2.2.2⟩
  · rename_i hc
    simp only [Option.isSome_none, Bool.false_eq_true, false_iff]
    intro hOK
    exact hc ⟨hOK.1, hOK.2.1, hOK.1, hOK.2.2.1, le_refl 0, hOK.2.2.2⟩

theorem parse_none_iff (item : RawTicker) (r : Int) :
    parse_binance_token item r = none ↔ ¬ parseOK item := by
  rw [← parse_isSome_iff item r]
  cases h : parse_binance_token item r <;> simp

theorem parse_ranked_mem {t : TokenData} :
    ∀ (l : List RawTicker) (i : Nat), t ∈ parse_ranked i l →
      ∃ item, item ∈ l ∧ ∃ r : Int, parse_binance_token item r = some t := by
  intro l
  induction l with
  | nil => intro i h; simp [parse_ranked] at h
  | cons a rest ih =>
    intro i h
    simp only [parse_ranked] at h
    cases hp : parse_binance_token a ((i : Int) + 1) with
    | some u =>
      rw [hp] at h
      simp only at h
      rcases List.mem_cons.mp h with htu | htail
      · exact ⟨a, List.mem_cons_self a rest, ⟨(i : Int) + 1, by rw [hp, htu]⟩⟩
      · rcases ih (i + 1) htail with ⟨item, hmem, hr⟩
        exact ⟨item, List.mem_cons_of_mem a hmem, hr⟩
    | none =>
      rw [hp] at h
      simp only at h
      rcases ih (i + 1) h with ⟨item, hmem, hr⟩
      exact ⟨item, List.mem_cons_of_mem a hmem, hr⟩

theorem parse_ranked_pairwise :
    ∀ (l : List RawTicker) (i : Nat),
      List.Pairwise (fun a b => volKey b ≤ volKey a) l →
      List.Pairwise (fun t u => u.total_volume ≤ t.total_volume) (parse_ranked i l) := by
  intro l
  induction l with
  | nil => intro i _; simp [parse_ranked]
  | cons a rest ih =>
    intro i hpw
    rcases List.pairwise_cons.mp hpw with ⟨ha, hrest⟩
    simp only [parse_ranked]
    cases hp : parse_binance_token a ((i : Int) + 1) with
    | some t =>
      simp only
      refine List.pairwise_cons.mpr ⟨?_, ih (i + 1) hrest⟩
      intro u hu
      rcases parse_ranked_mem rest (i + 1) hu with ⟨item, hmem, r, hr⟩
      have h1 := (parse_fields hp).2.1
      have h2 := (parse_fields hr).2.1
      rw [h1, h2]
      exact ha item hmem
    | none =>
      simp only
      exact ih (i + 1) hrest

theorem parse_ranked_map_rank :
    ∀ (l : List RawTicker) (i : Nat), (∀ item ∈ l, parseOK item) →
      (parse_ranked i l).map (fun t => t.market_cap_rank)
        = (List.range' (i + 1) l.length).map (fun n => Int.ofNat n) := by
  intro l
  induction l with
  | nil => intro i _; simp [parse_ranked]
  | cons a rest ih =>
    intro i h
    have ha : parseOK a := h a (List.mem_cons_self a rest)
    have hs : (parse_binance_token a ((i : Int) + 1)).isSome = true :=
      (parse_isSome_iff a ((i : Int) + 1)).mpr ha
    rcases Option.isSome_iff_exists.mp hs with ⟨t, ht⟩
    simp only [parse_ranked, ht, List.length_cons, List.range', List.map_cons]
    have hrank : t.market_cap_rank = (i : Int) + 1 := (parse_fields ht).1
    rw [hrank, ih (i + 1) (fun item hm => h item (List.mem_cons_of_mem a hm))]
    constructor

theorem fetch_data_sorted_eq (tickers : List RawTicker) (limit : Nat)
    (hvol : (usdtPairs tickers).all (fun x => x.quoteVolume.isSome) = true) :
    fetch_data tickers limit
      = parse_ranked 0 ((sortDescBy volKey (usdtPairs tickers)).take limit) := by
  cases tickers with
  | nil => simp [fetch_data, usdtPairs, sortDescBy, sortStable, parse_ranked]
  | cons a ts =>
    unfold fetch_data
    rw [if_neg (by simp), if_pos hvol]

/-! ## C1: rank assignment of fetch_data -/

/-- C1, counterexample: on a response whose middle USDT pair carries a
negative lastPrice, fetch_data returns two snapshots whose ranks are
[1, 3] - not the set {1, 2} the claim requires for a length-2 result.
The dropped record leaves a gap because ranks are assigned by position
in the truncated list before validation filters records out. -/
theorem fetch_data_rank_gap_counterexample :
    ¬ List.Perm
      ((fetch_data c1Tickers 50).map (fun t => t.market_cap_rank))
      ((List.range' 1 (fetch_data c1Tickers 50).length).map (fun n => Int.ofNat n)) := by
  decide

/-- C1, amended: when every USDT pair has a parseable quoteVolume (so
the sort really runs) and every record of the truncated top-N passes
validation (so none is dropped), the returned ranks are exactly
1..N in output order, the returned volumes are descending, and the
volume sort is stable: records with any given volume k keep their
original source order. -/
theorem fetch_data_rank_order (tickers : List RawTicker) (limit : Nat) (k : ℚ)
    (hvol : (usdtPairs tickers).all (fun x => x.quoteVolume.isSome) = true)
    (hparse : ∀ item ∈ (sortDescBy volKey (usdtPairs tickers)).take limit, parseOK item) :
    ((fetch_data tickers limit).map (fun t => t.market_cap_rank)
        = (List.range' 1 (fetch_data tickers limit).length).map (fun n => Int.ofNat n))
      ∧ List.Pairwise (fun a b => b.total_volume ≤ a.total_volume)
          (fetch_data tickers limit)
      ∧ (sortDescBy volKey (usdtPairs tickers)).filter (fun x => decide (volKey x = k))
          = (usdtPairs tickers).filter (fun x => decide (volKey x = k)) := by
  have hfd := fetch_data_sorted_eq tickers limit hvol
  have hmap := parse_ranked_map_rank
    ((sortDescBy volKey (usdtPairs tickers)).take limit) 0 hparse
  have hlen : (parse_ranked 0 ((sortDescBy volKey (usdtPairs tickers)).take limit)).length
      = ((sortDescBy volKey (usdtPairs tickers)).take limit).length := by
    rw [← List.length_map
        (parse_ranked 0 ((sortDescBy volKey (usdtPairs tickers)).take limit))
        (fun t => t.market_cap_rank),
      hmap, List.length_map, List.length_range']
  refine ⟨?_, ?_, ?_⟩
  · rw [hfd, hlen]
    simpa using hmap
  · rw [hfd]
    apply parse_ranked_pairwise
    exact List.Pairwise.sublist (List.take_sublist limit _)
      (sortDescBy_pairwise volKey (usdtPairs tickers))
  · apply sortStable_filter
    intro x y hx hxy
    have hx' : volKey x = k := of_decide_eq_true hx
    have hxy' : volKey x < volKey y := of_decide_eq_true hxy
    apply decide_eq_false
    intro he
    rw [hx', he] at hxy'
    exact lt_irrefl k hxy'

/-- C1, witness: the amended theorem applied to a concrete two-ticker
response with parseable volumes and valid records. -/
theorem fetch_data_rank_order_witness :
    ((fetch_data wTickers 50).map (fun t => t.market_cap_rank)
        = (List.range' 1 (fetch_data wTickers 50).length).map (fun n => Int.ofNat n))
      ∧ List.Pairwise (fun a b => b.total_volume ≤ a.total_volume)
          (fetch_data wTickers 50)
      ∧ (sortDescBy volKey (usdtPairs wTickers)).filter (fun x => decide (volKey x = 10))
          = (usdtPairs wTickers).filter (fun x => decide (volKey x = 10)) :=
  fetch_data_rank_order wTickers 50 10 (by decide) (by decide)

/-! ## C2: malformed numeric fields -/

/-- C2, counterexample: a single ticker whose lastPrice and
quoteVolume fail to parse is NOT dropped from the result: fetch_data
returns it, with the unparseable fields coerced to 0.0 by safe_float,
so the returned list is nonempty where the claim requires the record
to be gone. -/
theorem fetch_data_unparseable_kept_counterexample :
    fetch_data [c2Ticker] 5 ≠ []
      ∧ (fetch_data [c2Ticker] 5).map (fun t => t.current_price) = [0]
      ∧ (fetch_data [c2Ticker] 5).map (fun t => t.total_volume) = [0] := by
  refine ⟨by decide, by decide, by decide⟩

/-- C2, amended: a raw record whose numeric price/volume fields fail
to parse has those fields coerced to 0.0 and is retained, not dropped;
a record is dropped exactly when model validation fails (stripped
symbol empty or longer than 20 characters, or a parsed numeric field
negative).  Either way one malformed record never aborts the whole
fetch: the parse is per record and the rest of the batch proceeds. -/
theorem parse_malformed_policy (item : RawTicker) (r : Int) :
    (item.lastPrice = none → safe_float item.lastPrice = 0)
      ∧ (item.quoteVolume = none → safe_float item.quoteVolume = 0)
      ∧ (parse_binance_token item r = none ↔ ¬ parseOK item)
      ∧ (item.lastPrice = none → item.quoteVolume = none →
          1 ≤ (strip_usdt item.symbol).length → (strip_usdt item.symbol).length ≤ 20 →
          (parse_binance_token item r).isSome = true) := by
  refine ⟨?_, ?_, parse_none_iff item r, ?_⟩
  · intro h; rw [h]; rfl
  · intro h; rw [h]; rfl
  · intro hp hv h1 h2
    refine (parse_isSome_iff item r).mpr ⟨h1, h2, ?_, ?_⟩
    · rw [hp]; norm_num [safe_float]
    · rw [hv]; norm_num [safe_float]

/-- C2, witness: the amended theorem applied to the concrete
unparseable ticker. -/
theorem parse_malformed_policy_witness :
    (parse_binance_token c2Ticker 1).isSome = true :=
  (parse_malformed_policy c2Ticker 1).2.2.2 rfl rfl (by decide) (by decide)

/-! ## C3: the stream toggle -/

/-- C3, counterexample: the stream control of the app is a single
toggle, not separate start/stop operations.  Invoked in the Idle state
it is not a no-op (it starts the stream and spawns a poll thread), and
invoked in the Running state it stops the stream instead of leaving it
running. -/
theorem toggle_fetching_not_noop_counterexample :
    toggle_fetching { is_fetching := false, threads_spawned := 0 }
        ≠ { is_fetching := false, threads_spawned := 0 }
      ∧ (toggle_fetching { is_fetching := true, threads_spawned := 1 }).is_fetching
          = false := by
  refine ⟨by decide, by decide⟩

/-- C3, amended: toggle_fetching is a strict toggle: from Idle it
transitions to Running and spawns exactly one poll thread; from
Running it transitions to Idle and spawns none.  The thread-spawning
branch therefore never runs while already Running, so a single control
invocation never creates a second concurrent poll cycle. -/
theorem toggle_fetching_behavior (s : AppState) :
    (s.is_fetching = false →
        toggle_fetching s
          = { is_fetching := true, threads_spawned := s.threads_spawned + 1 })
      ∧ (s.is_fetching = true →
        toggle_fetching s
          = { is_fetching := false, threads_spawned := s.threads_spawned }) := by
  constructor
  · intro h; simp [toggle_fetching, h]
  · intro h; simp [toggle_fetching, h]

/-- C3, witness: both branches of the toggle at concrete states. -/
theorem toggle_fetching_behavior_witness :
    toggle_fetching { is_fetching := false, threads_spawned := 0 }
        = { is_fetching := true, threads_spawned := 1 }
      ∧ toggle_fetching { is_fetching := true, threads_spawned := 1 }
        = { is_fetching := false, threads_spawned := 1 } :=
  ⟨(toggle_fetching_behavior _).1 rfl, (toggle_fetching_behavior _).2 rfl⟩

/-! ## C4: analyze_trend on empty input -/

/-- C4, counterexample: analyze_trend([]) returns the empty dict {}
(modelled none): it is not a report carrying totalAssets = 0 and empty
gainer/loser lists, because the empty dict has none of those keys. -/
theorem analyze_trend_empty_counterexample :
    analyze_trend ([] : List TokenData) = none
      ∧ ¬ ∃ r : TrendReport, analyze_trend ([] : List TokenData) = some r
          ∧ r.total_tokens = 0 ∧ r.top_gainers = [] ∧ r.top_losers = [] := by
  refine ⟨rfl, ?_⟩
  rintro ⟨r, hr, -⟩
  simp [analyze_trend] at hr

/-- C4, amended: analyze_trend([]) returns the empty report {} (a
dict with no fields, modelled none) rather than raising an error;
consumers reading its keys with defaults observe zero / empty values. -/
theorem analyze_trend_empty_none :
    analyze_trend ([] : List TokenData) = none := rfl

/-! ## C5: symbol normalization -/

/-- C5, counterexample: for the valid pair symbol "AUSDTBUSDT" (it
ends with "USDT"), the claim expects the snapshot symbol "AUSDTB"
(trailing suffix stripped, uppercased), but replace removes every
occurrence of "USDT" and the produced symbol is "AB". -/
theorem parse_symbol_strip_counterexample :
    (parse_binance_token c5Ticker 1).map (fun t => t.symbol) = some "AB"
      ∧ "AB" ≠ "AUSDTB" := by
  refine ⟨by decide, by decide⟩

/-- C5, amended: every snapshot produced by the parse carries as its
symbol the pair symbol with every occurrence of "USDT" removed (not
only the trailing suffix), uppercased; for the typical pair containing
a single trailing "USDT" this coincides with suffix stripping. -/
theorem parse_symbol_removes_all_usdt (item : RawTicker) (r : Int) (t : TokenData)
    (h : parse_binance_token item r = some t) :
    t.symbol = pyUpper (strip_usdt item.symbol) :=
  (parse_fields h).2.2.1

/-- C5, witness: the amended theorem applied to a concrete BTCUSDT
ticker. -/
theorem parse_symbol_removes_all_usdt_witness :
    ({ id := "BTCUSDT", symbol := "BTC", name := "BTC", current_price := 1,
       market_cap := 0, market_cap_rank := 1, total_volume := 2,
       price_change_24h := 0, price_change_percentage_24h := 0,
       circulating_supply := 0, total_supply := 0, max_supply := 0,
       category := TokenCategory.LAYER1 } : TokenData).symbol
      = pyUpper (strip_usdt "BTCUSDT") :=
  parse_symbol_removes_all_usdt
    { symbol := "BTCUSDT", lastPrice := some 1, quoteVolume := some 2,
      priceChange := some 0, priceChangePercent := some 0 } 1 _ (by decide)

/-! ## C6: the categorizer -/

/-- C6: classify is a total Lean function (hence deterministic and
side-effect-free), it agrees with the priority-table specification
classifySpec (the static sets checked in the fixed order Layer1,
Stablecoin, DeFi, Meme, NFT, first match winning), and every symbol
maps into the six categories the chain can produce. -/
theorem classify_first_match_total (s : String) :
    classify s = classifySpec s
      ∧ classify s ∈ [TokenCategory.LAYER1, TokenCategory.STABLE, TokenCategory.DEFI,
          TokenCategory.MEME, TokenCategory.NFT, TokenCategory.UNKNOWN] := by
  constructor
  · by_cases h1 : s ∈ layer1_symbols <;> by_cases h2 : s ∈ stable_symbols <;>
      by_cases h3 : s ∈ defi_symbols <;> by_cases h4 : s ∈ meme_symbols <;>
      by_cases h5 : s ∈ nft_symbols <;>
      simp [classify, classifySpec, categoryChecks, List.find?, h1, h2, h3, h4, h5]
  · unfold classify
    split_ifs <;> simp

/-! ## C7: degenerate correlation inputs -/

theorem sumDevSq_nonneg (l : List ℚ) : 0 ≤ sumDevSq l := by
  apply List.sum_nonneg
  intro x hx
  rcases List.mem_map.mp hx with ⟨p, -, rfl⟩
  exact sq_nonneg _

theorem sumDevSq_replicate (n : Nat) (c : ℚ) : sumDevSq (List.replicate n c) = 0 := by
  cases n with
  | zero => rfl
  | succ m =>
    have hne : ((m : ℚ) + 1) ≠ 0 := by positivity
    unfold sumDevSq
    simp [List.map_replicate, List.sum_replicate, List.length_replicate, nsmul_eq_mul]
    right
    rw [mul_div_cancel_left₀ c hne, sub_self]

/-- C7: calculate_correlation returns the 0.0 sentinel whenever either
series has fewer than 2 points and whenever the squared Pearson
denominator is zero (in particular for a flat, zero-variance series);
in the remaining case the squared denominator is strictly positive, so
the division n / sqrt d is by a nonzero number and the result is a
well-defined number, never NaN; the function is total, so no input
raises. -/
theorem calculate_correlation_degenerate (prices1 prices2 : List ℚ) :
    (prices1.length < 2 ∨ prices2.length < 2 →
        calculate_correlation prices1 prices2 = CorrResult.zero)
      ∧ (corrDenomSq prices1 prices2 = 0 →
        calculate_correlation prices1 prices2 = CorrResult.zero)
      ∧ (∀ n d : ℚ, calculate_correlation prices1 prices2 = CorrResult.frac n d → 0 < d)
      ∧ (∀ c : ℚ, 2 ≤ prices2.length →
        calculate_correlation (List.replicate prices2.length c) prices2
          = CorrResult.zero) := by
  refine ⟨?_, ?_, ?_, ?_⟩
  · intro h
    unfold calculate_correlation
    rw [if_pos h]
  · intro h
    unfold calculate_correlation
    by_cases hs : prices1.length < 2 ∨ prices2.length < 2
    · rw [if_pos hs]
    · rw [if_neg hs, if_pos h]
  · intro n d h
    unfold calculate_correlation at h
    by_cases hs : prices1.length < 2 ∨ prices2.length < 2
    · rw [if_pos hs] at h; cases h
    · rw [if_neg hs] at h
      by_cases hd : corrDenomSq prices1 prices2 = 0
      · rw [if_pos hd] at h; cases h
      · rw [if_neg hd] at h
        have hdd : d = corrDenomSq prices1 prices2 := by
          cases h; rfl
        have hnn : 0 ≤ corrDenomSq prices1 prices2 :=
          mul_nonneg (sumDevSq_nonneg _) (sumDevSq_nonneg _)
        rw [hdd]
        exact lt_of_le_of_ne hnn (Ne.symm hd)
  · intro c hlen
    have hrep : corrDenomSq (List.replicate prices2.length c) prices2 = 0 := by
      unfold corrDenomSq
      rw [List.length_replicate, min_self, List.take_replicate, min_self,
        List.take_length, sumDevSq_replicate, zero_mul]
    have hns : ¬((List.replicate prices2.length c).length < 2 ∨ prices2.length < 2) := by
      rw [List.length_replicate]
      omega
    unfold calculate_correlation
    rw [if_neg hns, if_pos hrep]

/-- C7, witness: the three degenerate branches and the positive
denominator at concrete series. -/
theorem calculate_correlation_degenerate_witness :
    calculate_correlation [(1 : ℚ)] [1, 2] = CorrResult.zero
      ∧ calculate_correlation [(5 : ℚ), 5] [1, 2] = CorrResult.zero
      ∧ (0 : ℚ) < 1/4 :=
  ⟨(calculate_correlation_degenerate [1] [1, 2]).1 (by decide),
   (calculate_correlation_degenerate [5, 5] [1, 2]).2.1
     (by norm_num [corrDenomSq, sumDevSq]),
   (calculate_correlation_degenerate [1, 2] [1, 2]).2.2.1 (1/2) (1/4)
     (by norm_num [calculate_correlation, corrDenomSq, sumDevSq])⟩

/-! ## C8: analyze_trend on nonempty input -/

/-- C8: on a nonempty snapshot list, analyze_trend returns the report
whose top_gainers are the first 5 of the stable descending sort of a
copy by 24h change, whose top_losers are the first 5 of the ascending
ordering, and whose total_volume is the sum over all inputs; the sorts
really are orderings of the input (permutations, sorted the right
way); and on the three test assets the top gainer is DOGE, the top
loser is ETH, and total_tokens is 3. -/
theorem analyze_trend_nonempty_spec (data : List TokenData) (h : data ≠ []) :
    analyze_trend data
        = some { total_tokens := data.length,
                 total_volume := (data.map (fun t => t.total_volume)).sum,
                 top_gainers := ((sortDescBy changeKey data).take 5).map trendEntryOf,
                 top_losers := ((sortAscBy changeKey data).take 5).map trendEntryOf }
      ∧ List.Perm (sortDescBy changeKey data) data
      ∧ List.Pairwise (fun a b => changeKey b ≤ changeKey a) (sortDescBy changeKey data)
      ∧ List.Perm (sortAscBy changeKey data) data
      ∧ List.Pairwise (fun a b => changeKey a ≤ changeKey b) (sortAscBy changeKey data)
      ∧ (analyze_trend sampleTokens).map
          (fun r => ((r.top_gainers.head?).map (fun e => e.symbol),
                     (r.top_losers.head?).map (fun e => e.symbol), r.total_tokens))
          = some (some "DOGE", some "ETH", 3) := by
  refine ⟨?_, sortDescBy_perm _ _, sortDescBy_pairwise _ _, sortAscBy_perm _ _,
    sortAscBy_pairwise _ _, by decide⟩
  unfold analyze_trend
  rw [if_neg (by simpa using h)]

/-- C8, witness: the theorem applied to the three test assets. -/
theorem analyze_trend_nonempty_spec_witness :
    analyze_trend sampleTokens
        = some { total_tokens := sampleTokens.length,
                 total_volume := (sampleTokens.map (fun t => t.total_volume)).sum,
                 top_gainers :=
                   ((sortDescBy changeKey sampleTokens).take 5).map trendEntryOf,
                 top_losers :=
                   ((sortAscBy changeKey sampleTokens).take 5).map trendEntryOf }
      ∧ (analyze_trend sampleTokens).map
          (fun r => ((r.top_gainers.head?).map (fun e => e.symbol),
                     (r.top_losers.head?).map (fun e => e.symbol), r.total_tokens))
          = some (some "DOGE", some "ETH", 3) :=
  ⟨(analyze_trend_nonempty_spec sampleTokens (by decide)).1,
   (analyze_trend_nonempty_spec sampleTokens (by decide)).2.2.2.2.2⟩

/-! ## C9: TokenData price validation -/

/-- C9: constructing a TokenData with a negative current price is
rejected with a validation error (none) whatever the other fields are,
while construction with current price exactly 0 is accepted. -/
theorem tokendata_price_validation :
    (∀ (i s n : String) (p mc : ℚ) (r : Int) (tv pc pcp cs ts ms : ℚ)
        (cat : TokenCategory), p < 0 →
        TokenData.validate i s n p mc r tv pc pcp cs ts ms cat = none)
      ∧ (TokenData.validate "test" "X" "X" 0 0 0 0 0 0 0 0 0
          TokenCategory.UNKNOWN).isSome = true := by
  constructor
  · intro i s n p mc r tv pc pcp cs ts ms cat hp
    unfold TokenData.validate
    exact if_neg (fun hc => absurd hc.2.2.2.1 (not_le.mpr hp))
  · decide

/-- C9, witness: the rejection branch at the test case price -5. -/
theorem tokendata_price_validation_witness :
    TokenData.validate "test" "X" "X" (-5) 0 0 0 0 0 0 0 0
      TokenCategory.UNKNOWN = none :=
  tokendata_price_validation.1 "test" "X" "X" (-5) 0 0 0 0 0 0 0 0
    TokenCategory.UNKNOWN (by norm_num)

/-! ## C10: HistoricalData has no range validation -/

/-- C10: constructing a HistoricalData performs no range validation:
every assignment of field values, negative ones included, is accepted
and stored unchanged; by contrast the same negative price is rejected
by TokenData validation. -/
theorem historicaldata_no_validation :
    (∀ (ts : ℚ) (tid : String) (p v mc : ℚ),
        HistoricalData.validate ts tid p v mc
          = some { timestamp := ts, token_id := tid, price := p, volume := v,
                   market_cap := mc })
      ∧ HistoricalData.validate 0 "X" (-5) (-7) (-1)
          = some { timestamp := 0, token_id := "X", price := -5, volume := -7,
                   market_cap := -1 }
      ∧ TokenData.validate "X" "X" "X" (-5) 0 0 0 0 0 0 0 0
          TokenCategory.UNKNOWN = none := by
  refine ⟨fun ts tid p v mc => rfl, rfl, by decide⟩
